import Mathlib

/-!
Verification development for the hybrid semantic-lexical search engine of an
expense/tax-claim management backend.

The embedded code lives in:
* backend/app/services/search_service.py   (query normalizer, ranking and filtering engine)
* backend/app/services/embedding_service.py (record text projector, vector index store)
* backend/app/services/expense_service.py   (record creation)

Modelling conventions:
* Python floats are modelled as exact rationals `Q` (an unnormalised
  numerator/positive-denominator pair, so that all arithmetic reduces in the
  kernel).  The claims under study concern orderings and threshold
  comparisons, not floating-point rounding.
* The external collaborators (the sentence-transformer embedding model, FAISS
  distances fed to `search`, and difflib's `get_close_matches`) are inputs:
  the list of `(item_type, item_id, similarity)` candidates returned by the
  vector search is a parameter of `semantic_search`, and the fuzzy matcher is
  a field of the `Difflib` structure.  `difflib.SequenceMatcher.ratio` itself
  is translated concretely (`seqRatio`) because the ranking code calls it
  directly.
* Python `re` patterns are translated literally into a small backtracking
  regex interpreter (`RPat`/`Rx`), with greedy/lazy quantifier preference
  orders matching `re`'s leftmost-first semantics; ASCII inputs are assumed
  (all queries and vocabulary in scope are ASCII).
-/

/-! ## Exact rationals that reduce in the kernel -/

/-- A rational number as an unnormalised pair of an integer numerator and a
positive natural denominator.  Mirrors Python float values exactly for the
decimal constants appearing in the code. -/
structure Q where
  num : Int
  den : ℕ+
deriving DecidableEq

/-- Build a `Q` from a numerator and positive denominator. -/
def q (n : Int) (d : ℕ+) : Q := ⟨n, d⟩

/-- Comparison `a ≤ b` by cross multiplication (denominators are positive). -/
def Q.le (a b : Q) : Prop := a.num * (b.den : Int) ≤ b.num * (a.den : Int)

/-- Comparison `a < b` by cross multiplication. -/
def Q.lt (a b : Q) : Prop := a.num * (b.den : Int) < b.num * (a.den : Int)

instance : DecidableRel Q.le := fun a b => inferInstanceAs (Decidable (a.num * (b.den : Int) ≤ b.num * (a.den : Int)))

instance : DecidableRel Q.lt := fun a b => inferInstanceAs (Decidable (a.num * (b.den : Int) < b.num * (a.den : Int)))

/-- Boolean version of `Q.le`. -/
def Q.leB (a b : Q) : Bool := decide (Q.le a b)

/-- Boolean version of `Q.lt`. -/
def Q.ltB (a b : Q) : Bool := decide (Q.lt a b)

/-- Exact product. -/
def Q.mul (a b : Q) : Q := ⟨a.num * b.num, a.den * b.den⟩

/-- Exact sum. -/
def Q.add (a b : Q) : Q := ⟨a.num * (b.den : Int) + b.num * (a.den : Int), a.den * b.den⟩

/-- Exact difference. -/
def Q.sub (a b : Q) : Q := ⟨a.num * (b.den : Int) - b.num * (a.den : Int), a.den * b.den⟩

/-- Python's `max(a, b)`: returns `b` only when `b > a`, so ties keep `a`. -/
def Q.pymax (a b : Q) : Q := if Q.ltB a b then b else a

/-! ## ASCII string utilities -/

/-- ASCII lower-casing of a character (models Python `str.lower` on the ASCII
inputs in scope). -/
def lowerChar (c : Char) : Char :=
  if 'A' ≤ c ∧ c ≤ 'Z' then Char.ofNat (c.toNat + 32) else c

/-- ASCII upper-casing of a character. -/
def upperChar (c : Char) : Char :=
  if 'a' ≤ c ∧ c ≤ 'z' then Char.ofNat (c.toNat - 32) else c

/-- Models Python `str.lower()`. -/
def lowerS (s : String) : String := ⟨s.data.map lowerChar⟩

/-- Models Python `str.capitalize()`: first character upper-cased, the rest
lower-cased. -/
def capitalizeS (s : String) : String :=
  match s.data with
  | [] => ""
  | c :: cs => ⟨upperChar c :: cs.map lowerChar⟩

/-- Models Python's substring operator `pat in s`. -/
def containsSub (s pat : String) : Bool := decide (pat.data <:+: s.data)

/-- Models `' '.join(parts)`. -/
def joinSpace (l : List String) : String := String.intercalate " " l

/-- Word character for the regex `\w` class (ASCII letters, digits, `_`). -/
def isWordChar (c : Char) : Bool :=
  ('A' ≤ c && c ≤ 'Z') || ('a' ≤ c && c ≤ 'z') || ('0' ≤ c && c ≤ '9') || c == '_'

/-- Whitespace for the regex `\s` class. -/
def isSpaceChar (c : Char) : Bool :=
  c == ' ' || c == '\t' || c == '\n' || c == '\x0d' || c == '\x0b' || c == '\x0c'

/-- ASCII letter, for the `[A-Za-z]` class. -/
def isLetterChar (c : Char) : Bool := ('A' ≤ c && c ≤ 'Z') || ('a' ≤ c && c ≤ 'z')

/-- ASCII lowercase letter, for the `[a-z]` class. -/
def isLowerChar (c : Char) : Bool := 'a' ≤ c && c ≤ 'z'

/-- ASCII uppercase letter, for the `[A-Z]` class. -/
def isUpperChar (c : Char) : Bool := 'A' ≤ c && c ≤ 'Z'

/-- ASCII digit, for the `\d` class. -/
def isDigitChar (c : Char) : Bool := '0' ≤ c && c ≤ '9'

/-- First-occurrence deduplication of a list of strings; stands in for
Python's `list(set(xs))`, whose only order-insensitive uses here are
membership tests. -/
def dedupS (l : List String) : List String :=
  l.foldl (fun acc x => if acc.contains x then acc else acc ++ [x]) []

/-- Worker for `splitWs`, fuelled to keep the recursion structural. -/
def splitWsGo : Nat → List Char → List String
  | 0, _ => []
  | _, [] => []
  | Nat.succ fuel, c :: cs =>
    if isSpaceChar c then splitWsGo fuel cs
    else
      let run := (c :: cs).takeWhile (fun x => !isSpaceChar x)
      (⟨run⟩ : String) :: splitWsGo fuel ((c :: cs).drop run.length)

/-- Models Python `str.split()` (split on whitespace runs, dropping empties). -/
def splitWs (s : String) : List String := splitWsGo (s.data.length + 1) s.data

/-- Numeric value of a digit string (models Python `int(...)` on the matched
digit groups). -/
def natOfDigits (s : String) : Nat := s.data.foldl (fun n c => n * 10 + (c.toNat - 48)) 0

/-! ## A small backtracking regex interpreter

Each Python pattern used by the search service is translated into an `Rx`
(pre-context, capture group, post-context).  `matchP` enumerates the possible
continuations of a subpattern in regex backtracking preference order, so
greedy quantifiers yield longest-first and lazy quantifiers shortest-first
alternatives, exactly as `re` tries them. -/

/-- Regex subpatterns: character classes, sequencing, alternation, the word
boundary `\b`, greedy and lazy star over a class, and a greedy optional
group. -/
inductive RPat where
  | eps
  | cls (f : Char → Bool)
  | seq (p1 p2 : RPat)
  | alt (p1 p2 : RPat)
  | bnd
  | starG (f : Char → Bool)
  | starL (f : Char → Bool)
  | optG (p : RPat)

/-- The `\b` test between the previously consumed character and the next one. -/
def wordBoundary (prev : Option Char) (rest : List Char) : Bool :=
  (match prev with | some c => isWordChar c | none => false) !=
    (match rest with | c :: _ => isWordChar c | [] => false)

/-- States of a greedy class star, longest consumption first. -/
def starStatesG (f : Char → Bool) : Option Char → List Char → List (Option Char × List Char)
  | prev, [] => [(prev, [])]
  | prev, c :: rs =>
    if f c then starStatesG f (some c) rs ++ [(prev, c :: rs)] else [(prev, c :: rs)]

/-- States of a lazy class star, shortest consumption first. -/
def starStatesL (f : Char → Bool) : Option Char → List Char → List (Option Char × List Char)
  | prev, [] => [(prev, [])]
  | prev, c :: rs =>
    if f c then (prev, c :: rs) :: starStatesL f (some c) rs else [(prev, c :: rs)]

/-- All ways a subpattern can match a prefix of `rest`, in backtracking
preference order; each state is the last consumed character and the remaining
input. -/
def matchP : RPat → Option Char → List Char → List (Option Char × List Char)
  | .eps, prev, rest => [(prev, rest)]
  | .cls _, _, [] => []
  | .cls f, _, c :: rs => if f c then [(some c, rs)] else []
  | .seq p1 p2, prev, rest => (matchP p1 prev rest).flatMap (fun st => matchP p2 st.1 st.2)
  | .alt p1 p2, prev, rest => matchP p1 prev rest ++ matchP p2 prev rest
  | .bnd, prev, rest => if wordBoundary prev rest then [(prev, rest)] else []
  | .starG f, prev, rest => starStatesG f prev rest
  | .starL f, prev, rest => starStatesL f prev rest
  | .optG p, prev, rest => matchP p prev rest ++ [(prev, rest)]

/-- A full pattern with one capture group: context before the group, the
group body, and context after the group.  `re.findall` returns the group. -/
structure Rx where
  pre : RPat
  body : RPat
  post : RPat

/-- Try to match `r` anchored at the current position; on success return the
captured group, the new previous character, and the remaining input, choosing
alternatives in backtracking preference order. -/
def matchRx (r : Rx) (prev : Option Char) (rest : List Char) :
    Option (String × Option Char × List Char) :=
  (matchP r.pre prev rest).findSome? fun st1 =>
    (matchP r.body st1.1 st1.2).findSome? fun st2 =>
      match matchP r.post st2.1 st2.2 with
      | [] => none
      | st3 :: _ => some (⟨st1.2.take (st1.2.length - st2.2.length)⟩, st3.1, st3.2)

/-- Scanning loop of `re.findall`: try each start position left to right,
emit the capture of the first match, continue after the match end. -/
def findAllGo (r : Rx) : Nat → Option Char → List Char → List String
  | 0, _, _ => []
  | Nat.succ fuel, prev, rest =>
    match matchRx r prev rest with
    | some (cap, prev2, rest2) =>
      if rest2.length < rest.length then cap :: findAllGo r fuel prev2 rest2
      else
        match rest with
        | [] => [cap]
        | c :: rs => cap :: findAllGo r fuel (some c) rs
    | none =>
      match rest with
      | [] => []
      | c :: rs => findAllGo r fuel (some c) rs

/-- Models `re.findall(pattern, s)` for the translated patterns. -/
def findAll (r : Rx) (s : String) : List String := findAllGo r (s.data.length + 1) none s.data

/-- Literal string pattern. -/
def litP (s : String) : RPat :=
  s.data.foldr (fun c acc => RPat.seq (RPat.cls (fun x => x == c)) acc) RPat.eps

/-- Case-insensitive literal string pattern (for `re.IGNORECASE`). -/
def litCiP (s : String) : RPat :=
  s.data.foldr (fun c acc => RPat.seq (RPat.cls (fun x => lowerChar x == lowerChar c)) acc) RPat.eps

/-- `f+` greedy. -/
def plusG (f : Char → Bool) : RPat := RPat.seq (RPat.cls f) (RPat.starG f)

/-- `f+?` lazy. -/
def plusL (f : Char → Bool) : RPat := RPat.seq (RPat.cls f) (RPat.starL f)

/-- Pattern `\b\w+\b` (word tokenisation, search_service.py line 88 etc.). -/
def wordsRx : Rx := ⟨RPat.bnd, plusG isWordChar, RPat.bnd⟩

/-- Pattern `\bfor\s+([A-Za-z][a-z]+(?:\s+[A-Za-z][a-z]+)?)\b` compiled with
`re.IGNORECASE` (search_service.py line 111); under IGNORECASE both letter
classes accept any letter. -/
def personRx : Rx :=
  ⟨RPat.seq RPat.bnd (RPat.seq (litCiP "for") (plusG isSpaceChar)),
   RPat.seq (RPat.cls isLetterChar)
     (RPat.seq (plusG isLetterChar)
       (RPat.optG (RPat.seq (plusG isSpaceChar)
         (RPat.seq (RPat.cls isLetterChar) (plusG isLetterChar))))),
   RPat.bnd⟩

/-- Pattern `\b[A-Z][a-z]+\b` (search_service.py line 117). -/
def capWordRx : Rx := ⟨RPat.bnd, RPat.seq (RPat.cls isUpperChar) (plusG isLowerChar), RPat.bnd⟩

/-- Pattern `\bfor\s+([a-z]{3,})\b` (search_service.py line 127). -/
def forLowerRx : Rx :=
  ⟨RPat.seq RPat.bnd (RPat.seq (litP "for") (plusG isSpaceChar)),
   RPat.seq (RPat.cls isLowerChar)
     (RPat.seq (RPat.cls isLowerChar) (RPat.seq (RPat.cls isLowerChar) (RPat.starG isLowerChar))),
   RPat.bnd⟩

/-- Pattern `\b(.+?)\s+expense\b` (search_service.py line 147); `.` matches
anything but a newline. -/
def exp1Rx : Rx :=
  ⟨RPat.bnd, plusL (fun c => c != '\n'),
   RPat.seq (plusG isSpaceChar) (RPat.seq (litP "expense") RPat.bnd)⟩

/-- Pattern `\bexpense\s+(.+?)\b` (search_service.py line 148). -/
def exp2Rx : Rx :=
  ⟨RPat.seq RPat.bnd (RPat.seq (litP "expense") (plusG isSpaceChar)),
   plusL (fun c => c != '\n'), RPat.bnd⟩

/-- Pattern `"([^"]+)"` (search_service.py line 160). -/
def quotedRx : Rx :=
  ⟨RPat.cls (fun c => c == '"'), plusG (fun c => c != '"'), RPat.cls (fun c => c == '"')⟩

/-- Pattern `\b(1[0-2]|[1-9])\b` (search_service.py line 225). -/
def monthNumRx : Rx :=
  ⟨RPat.bnd,
   RPat.alt (RPat.seq (RPat.cls (fun c => c == '1')) (RPat.cls (fun c => '0' ≤ c && c ≤ '2')))
     (RPat.cls (fun c => '1' ≤ c && c ≤ '9')),
   RPat.bnd⟩

/-- Pattern `\b(20\d{2})\b` (search_service.py line 234). -/
def yearRx : Rx :=
  ⟨RPat.bnd,
   RPat.seq (RPat.cls (fun c => c == '2'))
     (RPat.seq (RPat.cls (fun c => c == '0')) (RPat.seq (RPat.cls isDigitChar) (RPat.cls isDigitChar))),
   RPat.bnd⟩

/-! ## difflib

`SequenceMatcher.ratio` is called directly by the ranking code, so it is
translated here from CPython's difflib (no junk: the strings in scope are far
shorter than the 200-character autojunk threshold, and with an empty junk set
the post-loop block extensions in `find_longest_match` are no-ops because the
inner dynamic program already finds maximal runs).  `get_close_matches` is
only reached by tokens missing both the typo table and the exact vocabulary;
it is kept abstract as a field of `Difflib`. -/

/-- Ascending positions of `c` in `l` (difflib's `b2j`). -/
def charPositions (c : Char) (l : List Char) : List Nat :=
  (List.range l.length).filter (fun j => l.get? j == some c)

/-- One inner step of `find_longest_match`: process b-index `j` for a-index
`i`, reading run lengths from the previous row `j2prev`. -/
def flmStep (j2prev : List (Nat × Nat)) (i : Nat)
    (acc : List (Nat × Nat) × Nat × Nat × Nat) (j : Nat) :
    List (Nat × Nat) × Nat × Nat × Nat :=
  let k := (if j == 0 then 0 else
    (((j2prev.find? (fun p => p.1 == j - 1)).map (fun p => p.2)).getD 0)) + 1
  let newj2 := (j, k) :: acc.1
  if acc.2.2.2 < k then (newj2, i + 1 - k, j + 1 - k, k)
  else (newj2, acc.2)

/-- difflib `SequenceMatcher.find_longest_match(alo, ahi, blo, bhi)` with an
empty junk set: returns `(besti, bestj, bestsize)`. -/
def findLongestMatch (a b : List Char) (alo ahi blo bhi : Nat) : Nat × Nat × Nat :=
  let idxs := (List.range a.length).filter (fun i => alo ≤ i && i < ahi)
  let res := idxs.foldl
    (fun (st : List (Nat × Nat) × Nat × Nat × Nat) i =>
      let ai := (a.get? i).getD ' '
      let js := (charPositions ai b).filter (fun j => blo ≤ j && j < bhi)
      let inner := js.foldl (flmStep st.1 i) ([], st.2)
      inner)
    ([], alo, blo, 0)
  res.2

/-- Total size of the matching blocks found by difflib's recursive
partitioning around each longest match (the only use `ratio` makes of
`get_matching_blocks`). -/
def matchingTotal (a b : List Char) : Nat → Nat × Nat × Nat × Nat → Nat
  | 0, _ => 0
  | Nat.succ fuel, (alo, ahi, blo, bhi) =>
    let m := findLongestMatch a b alo ahi blo bhi
    if m.2.2 == 0 then 0
    else
      m.2.2 + matchingTotal a b fuel (alo, m.1, blo, m.2.1)
        + matchingTotal a b fuel (m.1 + m.2.2, ahi, m.2.1 + m.2.2, bhi)

/-- difflib `SequenceMatcher(None, a, b).ratio() = 2*M / (len(a)+len(b))`,
and `1.0` when both strings are empty. -/
def seqRatio (sa sb : String) : Q :=
  let a := sa.data
  let b := sb.data
  let total := a.length + b.length
  if h : total = 0 then q 1 1
  else
    ⟨(2 * matchingTotal a b (total + 1) (0, a.length, 0, b.length) : Nat),
      ⟨total, Nat.pos_of_ne_zero h⟩⟩

/-- The two difflib entry points the search service uses.  `ratio` is the
concrete translation above in every evaluation below; `closeMatch` stands for
`get_close_matches(word, vocabulary, n=1, cutoff)` and stays abstract — all
tokens corrected in the theorems below hit the typo table or the exact
vocabulary first, so it is never consulted. -/
structure Difflib where
  ratio : String → String → Q
  closeMatch : String → List String → Q → Option String

/-- Placeholder for `get_close_matches`; unused by every evaluation in this
development (see `Difflib`). -/
def closeMatchStub : String → List String → Q → Option String := fun _ _ _ => none

/-- The difflib instantiation used for concrete evaluations. -/
def difflibD : Difflib := ⟨seqRatio, closeMatchStub⟩

/-! ## Data model

Records as loaded from the relational store (models/expense.py,
models/gst_claim.py, models/user.py): only the fields read by the embedded
code are modelled.  Dates are calendar triples; `user` is the joined-loaded
owning user. -/

/-- A calendar date (the embedded code reads `.month`, `.year`, `.day`). -/
structure DateD where
  year : Nat
  month : Nat
  day : Nat
deriving DecidableEq

/-- A user row; `full_name` is nullable. -/
structure UserM where
  uid : Nat
  full_name : Option String
deriving DecidableEq

/-- An expense row (models/expense.py).  `amount`/`gst_amount` are floats in
the source, modelled as exact rationals. -/
structure Expense where
  id : Nat
  user_id : Nat
  date : Option DateD
  amount : Q
  label : String
  item : String
  category : String
  description : Option String
  status : String
  gst_eligible : Bool
  gst_amount : Q
  user : Option UserM
deriving DecidableEq

/-- A GST claim row (models/gst_claim.py), fields read by the embedded code. -/
structure GSTClaim where
  id : Nat
  user_id : Nat
  vendor : String
  category : String
  amount : Q
  gst_amount : Q
  gst_rate : Q
  status : String
  created_at : Option DateD
  user : Option UserM
deriving DecidableEq

/-- The relational store visible to the search and indexing paths. -/
structure Db where
  expenses : List Expense
  gstClaims : List GSTClaim
  users : List UserM

/-! ## Query normalizer (search_service.py lines 10-237) -/

/-- `SearchService.EXPENSE_VOCABULARY` (search_service.py lines 12-29),
verbatim including the duplicated and mixed-case entries. -/
def EXPENSE_VOCABULARY : List String :=
  ["petrol", "diesel", "food", "lunch", "dinner", "breakfast", "travel",
   "taxi", "cab", "uber", "ola", "hotel", "transport", "fuel", "gas",
   "restaurant", "cafe", "coffee", "snacks", "groceries", "stationery",
   "office", "supplies", "equipment", "maintenance", "repair", "service",
   "internet", "phone", "mobile", "utility", "electricity", "water",
   "rent", "salary", "medical", "medicine", "doctor", "hospital",
   "insurance", "premium", "subscription", "software", "license",
   "training", "workshop", "seminar", "conference", "meeting",
   "entertainment", "movie", "cinema", "parking", "toll", "ticket",
   "flight", "train", "bus", "metro", "shopping", "gift", "donation",
   "pertol", "petrole", "petrol",
   "GST", "GST eligible", "GST rate", "GST amount", "GST tax", "GST vat",
   "gst", "tax", "vat", "rate", "amount", "cost", "price", "bill", "invoice",
   "receipt", "total", "sum", "expense", "expenses"]

/-- `SearchService.TYPO_CORRECTIONS` (search_service.py lines 32-36). -/
def TYPO_CORRECTIONS : List (String × String) :=
  [("pertol", "petrol"), ("petrole", "petrol"), ("petrol", "petrol")]

/-- The cutoff loop of `_correct_spelling` (search_service.py lines 60-70):
try `get_close_matches` at each cutoff; accept only when the
`SequenceMatcher` ratio is at least 0.7. -/
def cutoffLoop (d : Difflib) (vocab : List String) (wl : String) : List Q → Option String
  | [] => none
  | c :: cs =>
    match d.closeMatch wl vocab c with
    | some m =>
      if Q.leB (q 7 10) (d.ratio wl m) then
        some (if wl == "pertol" && m == "petrol" then "petrol" else m)
      else cutoffLoop d vocab wl cs
    | none => cutoffLoop d vocab wl cs

/-- `SearchService._correct_spelling` (search_service.py lines 38-82). -/
def correct_spelling (d : Difflib) (vocabulary : List String) (word : String) : String :=
  if word.length < 2 then word
  else
    let word_lower := lowerS word
    match (TYPO_CORRECTIONS.find? (fun p => p.1 == word_lower)).map (fun p => p.2) with
    | some c => c
    | none =>
      if vocabulary.contains word_lower then word_lower
      else
        match cutoffLoop d vocabulary word_lower [q 3 4, q 7 10, q 13 20] with
        | some r => r
        | none =>
          if 4 < word_lower.length then
            match vocabulary.find? (fun v =>
                (containsSub v word_lower || containsSub word_lower v) &&
                  Q.leB (q 7 10) (d.ratio word_lower v)) with
            | some v => v
            | none => word_lower
          else word_lower

/-- `SearchService._normalize_query` (search_service.py lines 84-90). -/
def normalize_query (d : Difflib) (query : String) : String :=
  joinSpace ((findAll wordsRx (lowerS query)).map (correct_spelling d EXPENSE_VOCABULARY))

/-- `date_words` (search_service.py lines 97-99). -/
def DATE_WORDS : List String :=
  ["jan", "january", "feb", "february", "mar", "march", "apr", "april",
   "may", "jun", "june", "jul", "july", "aug", "august", "sep", "september",
   "oct", "october", "nov", "november", "dec", "december"]

/-- `stopwords` (search_service.py lines 102-104). -/
def STOPWORDS : List String :=
  ["what", "is", "are", "was", "were", "the", "a", "an", "of",
   "to", "on", "at", "with", "by", "from", "about", "how", "much",
   "did", "i", "spend", "show", "me", "find", "search", "list"]

/-- Output of `_extract_keywords`. -/
structure KeywordData where
  keywords : List String
  personNames : List String
  phrases : List String
  personNamesFromDb : List String

/-- `SearchService._extract_keywords` (search_service.py lines 92-199).  The
database-vocabulary block (the `try`) is modelled as succeeding; the
`limit(100)` caps are immaterial for the record sets in scope and omitted;
`list(set(...))` becomes a first-occurrence deduplication (Python's set order
is arbitrary, and the vocabulary's only order-sensitive consumer is the
abstract fuzzy matcher). -/
def extract_keywords (d : Difflib) (db : Db) (query : String) : KeywordData :=
  let query_lower := lowerS query
  let p1 := (findAll personRx query).filter (fun m => 2 < m.length)
  let caps := findAll capWordRx query
  let p2 := caps.foldl
    (fun acc w =>
      let wl := lowerS w
      if !(DATE_WORDS.contains wl) && !(STOPWORDS.contains wl) && 2 < w.length &&
          !(acc.contains w)
      then acc ++ [w] else acc) p1
  let forMatches := findAll forLowerRx query_lower
  let person_names := forMatches.foldl
    (fun acc m =>
      if !(DATE_WORDS.contains m) && !(STOPWORDS.contains m) &&
          !((acc.map lowerS).contains m)
      then acc ++ [capitalizeS m] else acc) p2
  let words := findAll wordsRx query_lower
  let person_names_lower := person_names.map lowerS
  let keywords := words.filter (fun w =>
    !(DATE_WORDS.contains w) && !(STOPWORDS.contains w) && 2 < w.length &&
      !(person_names_lower.contains w))
  let phrases := ([exp1Rx, exp2Rx].map (fun pat =>
    (findAll pat query_lower).filterMap (fun m =>
      let mws := (findAll wordsRx m).filter (fun w =>
        !(STOPWORDS.contains w) && !(DATE_WORDS.contains w))
      if 2 ≤ mws.length then some (joinSpace mws) else none))).flatten
  let phrases := phrases ++ findAll quotedRx query_lower
  let vocab0 := EXPENSE_VOCABULARY
    ++ (dedupS (db.expenses.map (fun e => e.category))).filterMap
        (fun ct => if ct == "" then none else some (lowerS ct))
    ++ (dedupS (db.expenses.map (fun e => e.label))).filterMap
        (fun lb => if lb == "" then none else some (lowerS lb))
    ++ (dedupS (db.expenses.map (fun e => e.item))).filterMap
        (fun it => if it == "" then none else some (lowerS it))
    ++ ((dedupS (db.expenses.map (fun e => e.item))).filterMap
        (fun it => if it == "" then none else some (findAll wordsRx (lowerS it)))).flatten
  let person_names_from_db := db.users.filterMap (fun u =>
    match u.full_name with
    | some n => if n == "" then none else some n
    | none => none)
  let vocabulary := dedupS vocab0
  let corrected := keywords.map (correct_spelling d vocabulary)
  ⟨corrected, person_names, phrases, person_names_from_db⟩

/-- The ordered month-substring table of `_extract_month_from_query`
(search_service.py lines 205-218), in dict insertion order. -/
def MONTH_MAP : List (String × Nat) :=
  [("jan", 1), ("january", 1), ("feb", 2), ("february", 2), ("mar", 3), ("march", 3),
   ("apr", 4), ("april", 4), ("may", 5), ("jun", 6), ("june", 6), ("jul", 7), ("july", 7),
   ("aug", 8), ("august", 8), ("sep", 9), ("september", 9), ("oct", 10), ("october", 10),
   ("nov", 11), ("november", 11), ("dec", 12), ("december", 12)]

/-- `SearchService._extract_month_from_query` (search_service.py lines
201-229). -/
def extract_month_from_query (query : String) : Option Nat :=
  let query_lower := lowerS query
  match MONTH_MAP.find? (fun p => containsSub query_lower p.1) with
  | some p => some p.2
  | none =>
    match findAll monthNumRx query with
    | m :: _ => some (natOfDigits m)
    | [] => none

/-- `SearchService._extract_year_from_query` (search_service.py lines
231-237); `nowYear` stands for `datetime.now().year`. -/
def extract_year_from_query (query : String) (nowYear : Nat) : Nat :=
  match findAll yearRx query with
  | y :: _ => natOfDigits y
  | [] => nowYear

/-- The GST-query classification (search_service.py line 268):
`any(term in query.lower() for term in ['gst', 'tax', 'vat', 'gst eligible'])`. -/
def isGstQueryOf (query : String) : Bool :=
  ["gst", "tax", "vat", "gst eligible"].any (fun t => containsSub (lowerS query) t)

/-- `excluded_words` (search_service.py lines 277-280). -/
def EXCLUDED_WORDS : List String :=
  ["expense", "expenses", "in", "nov", "november", "dec", "december",
   "jan", "january", "feb", "february", "mar", "march", "apr", "april",
   "may", "jun", "june", "jul", "july", "aug", "august", "sep", "september",
   "oct", "october", "for", "the", "a", "an", "at", "of", "on", "with", "from"]

/-- The specific-item-keyword scan (search_service.py lines 272-288): every
keyword outside `excluded_words` of length > 2 becomes a specific item
keyword, and the flag is set when at least one exists. -/
def specificSplit (keywords : List String) : Bool × List String :=
  let lst := keywords.filterMap (fun kw =>
    let kl := lowerS kw
    if !(EXCLUDED_WORDS.contains kl) && 2 < kl.length then some kl else none)
  (!lst.isEmpty, lst)

/-! ## Record text projector and vector index store (embedding_service.py) -/

/-- `strftime("%B")`: full English month name. -/
def monthFull : Nat → String
  | 1 => "January" | 2 => "February" | 3 => "March" | 4 => "April"
  | 5 => "May" | 6 => "June" | 7 => "July" | 8 => "August"
  | 9 => "September" | 10 => "October" | 11 => "November" | 12 => "December"
  | _ => ""

/-- `strftime("%b")`: abbreviated English month name. -/
def monthAbbr : Nat → String
  | 1 => "Jan" | 2 => "Feb" | 3 => "Mar" | 4 => "Apr"
  | 5 => "May" | 6 => "Jun" | 7 => "Jul" | 8 => "Aug"
  | 9 => "Sep" | 10 => "Oct" | 11 => "Nov" | 12 => "Dec"
  | _ => ""

/-- Zero-padded two-digit rendering (`%m`, `%d`). -/
def pad2 (n : Nat) : String := if n < 10 then "0" ++ Nat.repr n else Nat.repr n

/-- The four date renderings of `generate_text`/`generate_gst_text`
(embedding_service.py lines 32-43, 151-163), joined by spaces. -/
def dateVariants (dt : DateD) : String :=
  joinSpace
    [monthFull dt.month ++ " " ++ Nat.repr dt.year,
     monthAbbr dt.month ++ " " ++ Nat.repr dt.year,
     pad2 dt.month ++ " " ++ Nat.repr dt.year,
     pad2 dt.day ++ " " ++ monthFull dt.month]

/-- `EmbeddingService.generate_text` (embedding_service.py lines 31-47);
`showNum` abstracts Python's float-to-string rendering of `expense.amount`. -/
def generate_text (showNum : Q → String) (e : Expense) : String :=
  let date_str := match e.date with
    | some dt => dateVariants dt
    | none => ""
  let t := e.label ++ " " ++ e.item ++ " " ++ e.category ++ " " ++ date_str ++ " "
    ++ showNum e.amount ++ " rupees"
  match e.description with
  | some dsc => if dsc == "" then t else t ++ " " ++ dsc
  | none => t

/-- `EmbeddingService.generate_gst_text` (embedding_service.py lines
149-173). -/
def generate_gst_text (showNum : Q → String) (g : GSTClaim) : String :=
  let date_str := match g.created_at with
    | some dt => dateVariants dt
    | none => ""
  let text1 := g.vendor ++ " " ++ g.category ++ " " ++ date_str ++ " "
    ++ showNum g.amount ++ " rupees gst tax vat"
  let text2 := text1 ++ " gst amount " ++ showNum g.gst_amount ++ " gst rate "
    ++ showNum g.gst_rate ++ "%"
  match g.user with
  | some u =>
    match u.full_name with
    | some n => if n == "" then text2 else text2 ++ " " ++ n
    | none => text2
  | none => text2

/-- Renders the whole-valued floats used by the concrete records below the
way Python's `str()` does (e.g. `"100.0"`); no evaluation in this file
reaches a non-integral amount. -/
def pyFloatStr (x : Q) : String :=
  if x.num % (x.den : Int) == 0 then
    (if x.num < 0 then "-" else "") ++ Nat.repr (x.num / (x.den : Int)).natAbs ++ ".0"
  else "nonintegral"

/-- A durable `Embedding` row (models/expense.py lines 27-41) as read back by
`load_from_db`: nullable `item_type`, the discriminated `item_id`, the legacy
`expense_id`, and the stored vector. -/
structure EmbRow where
  item_type : Option String
  item_id : Nat
  expense_id : Nat
  vector : List Q
deriving DecidableEq

/-- The in-memory vector index: FAISS slot `i` holds `vectors[i]`, and
`id_map` maps each slot to its `(item_type, item_id)` pair
(embedding_service.py lines 24-28). -/
structure Index where
  vectors : List (List Q)
  idMap : List (String × Nat)
deriving DecidableEq

/-- The freshly constructed index of `EmbeddingService.__init__`. -/
def emptyIndex : Index := ⟨[], []⟩

/-- `EmbeddingService._add_vector_to_index` (embedding_service.py lines
99-103): append the vector at slot `ntotal` and record the mapping. -/
def add_vector_to_index (ix : Index) (t : String) (i : Nat) (v : List Q) : Index :=
  ⟨ix.vectors ++ [v], ix.idMap ++ [(t, i)]⟩

/-- The kind/id resolution of `load_from_db` (embedding_service.py lines
230-238): truthy `item_type` selects the new format, otherwise the legacy
`expense_id` is used with kind `"expense"`. -/
def rowKindId (r : EmbRow) : String × Nat :=
  match r.item_type with
  | some t => if t == "" then ("expense", r.expense_id) else (t, r.item_id)
  | none => ("expense", r.expense_id)

/-- The FAISS-replay loop of `EmbeddingService.load_from_db`
(embedding_service.py lines 212-245), applied to the durable rows as they
stand after `_ensure_schema` and `_backfill_missing_embeddings`: every row is
pushed through `_add_vector_to_index` in stored order.  Note the in-memory
state `ix` is an input — the source resets nothing before the loop. -/
def load_from_db (ix : Index) (rows : List EmbRow) : Index :=
  rows.foldl (fun acc r => add_vector_to_index acc (rowKindId r).1 (rowKindId r).2 r.vector) ix

/-- Squared L2 distance (what FAISS `IndexFlatL2.search` reports). -/
def l2sq (u v : List Q) : Q :=
  (u.zip v).foldl (fun acc p => Q.add acc (Q.mul (Q.sub p.1 p.2) (Q.sub p.1 p.2))) (q 0 1)

/-- `similarity = 1 / (1 + distance)` (embedding_service.py line 206) for a
nonnegative distance `n/m`: equals `m / (m + n)`. -/
def simOfDist (dq : Q) : Q :=
  ⟨(dq.den : Nat), ⟨(dq.den : Nat) + dq.num.toNat,
    Nat.lt_of_lt_of_le dq.den.pos (Nat.le_add_right _ _)⟩⟩

/-- Ordering of FAISS candidates: ascending distance, ties by slot. -/
def distLe (x y : Nat × Q) : Prop :=
  Q.lt x.2 y.2 ∨ (x.2.num * (y.2.den : Int) = y.2.num * (x.2.den : Int) ∧ x.1 ≤ y.1)

instance : DecidableRel distLe := fun x y =>
  inferInstanceAs (Decidable (Q.lt x.2 y.2 ∨ (x.2.num * (y.2.den : Int) = y.2.num * (x.2.den : Int) ∧ x.1 ≤ y.1)))

/-- `EmbeddingService.search` restricted to its FAISS core
(embedding_service.py lines 184-210): the query vector is embedded
externally, FAISS returns the `k` nearest stored vectors by squared L2
distance, unknown slots are skipped, and each hit is reported as
`(item_type, item_id, 1/(1+distance))`. -/
def index_search (ix : Index) (qv : List Q) (k : Nat) : List (String × Nat × Q) :=
  let scored := ix.vectors.enum.map (fun p => (p.1, l2sq qv p.2))
  let sorted := List.insertionSort distLe scored
  (sorted.take k).filterMap (fun p =>
    match ix.idMap.get? p.1 with
    | some ti => some (ti.1, ti.2, simOfDist p.2)
    | none => none)

/-! ## Ranking and filtering engine (search_service.py lines 239-637) -/

/-- The three result buckets of `semantic_search` for expenses plus the
GST-claim catch-all list (search_service.py lines 298-301). -/
inductive Bucket where
  | dateKeyword
  | keywordOnly
  | plain
  | gstExtra
deriving DecidableEq, BEq

/-- One entry of the returned result list; `gst_amount` is present exactly on
GST-claim results (search_service.py lines 439-448 and 567-578). -/
structure ResultData where
  id : Nat
  type : String
  label : String
  item : String
  amount : Q
  category : String
  status : String
  gst_amount : Option Q
  score : Q
deriving DecidableEq

/-- The per-query context assembled by `semantic_search` before candidate
processing (search_service.py lines 254-288): extraction results, the year,
the classification flags, and the `SequenceMatcher.ratio` collaborator used
by fuzzy keyword matching. -/
structure ProcessCtx where
  month : Option Nat
  year : Nat
  keywords : List String
  personNames : List String
  phrases : List String
  personNamesFromDb : List String
  isGst : Bool
  hasSpecific : Bool
  specificKws : List String
  ratio : String → String → Q

/-- Python truthiness of the optional month (`if month and ...`). -/
def monthTruthy (m : Option Nat) : Bool :=
  match m with
  | some v => !(v == 0)
  | none => false

/-- Result-record construction for an expense (search_service.py lines
439-448). -/
def mkExpenseRD (e : Expense) (s boost : Q) : ResultData :=
  { id := e.id, type := "expense", label := e.label, item := e.item, amount := e.amount,
    category := e.category, status := e.status, gst_amount := none, score := Q.mul s boost }

/-- Bucket choice for an expense (search_service.py lines 450-459); `none`
is the fall-through that appends nothing. -/
def expenseBucket (c : ProcessCtx) (date_match gm pm phm km : Bool) : Option Bucket :=
  if date_match && (km || phm || pm || gm) then some Bucket.dateKeyword
  else if km || phm || pm || gm then some Bucket.keywordOnly
  else if !c.isGst || gm then some Bucket.plain
  else none

/-- Append step for an expense result: pair the chosen bucket with the
constructed record. -/
def expenseOut (c : ProcessCtx) (e : Expense) (s boost : Q) (dm gm pm phm km : Bool) :
    Option (Bucket × ResultData) :=
  (expenseBucket c dm gm pm phm km).map (fun bk => (bk, mkExpenseRD e s boost))

/-- The pure match computations of `process_expense_result`
(search_service.py lines 309-408): searchable text, the soft-signal matches,
the running score boost after lines 383-391, and the specific-item scan of
lines 399-408 with its 2.0 boost.  Collected in one structure so the control
flow below mirrors the source's early returns. -/
structure ExpenseMatchData where
  eligible : Bool
  gst_match : Bool
  person_name_match : Bool
  phrase_match : Bool
  keyword_match : Bool
  keyword_found : Bool
  exact_keyword_match : Bool
  boost6 : Q

/-- Computes `ExpenseMatchData` exactly as the source does, in source order. -/
def expenseMatchData (c : ProcessCtx) (e : Expense) : ExpenseMatchData :=
  let parts := [lowerS e.label, lowerS e.item, lowerS e.category]
  let parts := parts ++ (match e.description with
    | some dsc => if dsc == "" then [] else [lowerS dsc]
    | none => [])
  let parts := parts ++ (match e.user with
    | some u =>
      match u.full_name with
      | some n => if n == "" then [] else [lowerS n]
      | none => []
    | none => [])
  let eligible := e.gst_eligible || Q.ltB (q 0 1) e.gst_amount
  let expense_text0 := joinSpace parts
  let expense_text := if eligible then expense_text0 ++ " gst tax gst-eligible" else expense_text0
  let expense_words := dedupS (findAll wordsRx expense_text)
  let gst_match := c.isGst && eligible
  let person_name_match := c.personNames.any (fun pn =>
    let pl := lowerS pn
    containsSub expense_text pl ||
      c.personNamesFromDb.any (fun dbn =>
        (containsSub (lowerS dbn) pl || containsSub pl (lowerS dbn)) &&
          (match e.user with
           | some u =>
             match u.full_name with
             | some n => !(n == "") && containsSub (lowerS n) pl
             | none => false
           | none => false)))
  let phrase_match := c.phrases.any (fun ph =>
    let pl := lowerS ph
    containsSub expense_text pl &&
      (splitWs pl).all (fun w => expense_words.any (fun ew => containsSub ew w || containsSub w ew)))
  let keyword_match := c.keywords.any (fun kw =>
    containsSub expense_text kw || expense_words.contains kw ||
      expense_words.any (fun ew => Q.leB (q 7 10) (c.ratio kw ew)))
  let boost2 := if !c.personNames.isEmpty then Q.pymax (q 1 1) (q 3 2) else q 1 1
  let boost3 := if phrase_match then Q.pymax boost2 (q 7 5) else boost2
  let boost4 := if keyword_match then Q.pymax boost3 (q 13 10) else boost3
  let boost5 := if c.isGst && gst_match then Q.pymax boost4 (q 13 10) else boost4
  let label_lower := lowerS e.label
  let item_lower := if e.item == "" then "" else lowerS e.item
  let keyword_found := c.specificKws.any (fun k =>
    containsSub label_lower k || containsSub item_lower k)
  let exact_keyword_match := c.hasSpecific && keyword_found
  let boost6 := if exact_keyword_match then Q.pymax boost5 (q 2 1) else boost5
  ⟨eligible, gst_match, person_name_match, phrase_match, keyword_match,
    keyword_found, exact_keyword_match, boost6⟩

/-- The early-return control flow of `process_expense_result` over its match
data (search_service.py lines 328-459).  The date block keeps the source's
control flow exactly: its `else` belongs to the outer
`if month and expense.date` (lines 416-424), so the hard return fires when no
month was extracted (or the record has no date), while a month mismatch falls
through with `date_match` still true — hence `date_match` is literally `true`
in every surviving path. -/
def processExpenseCore (c : ProcessCtx) (e : Expense) (s : Q) (md : ExpenseMatchData) :
    Option (Bucket × ResultData) :=
  if c.isGst && !md.eligible then none
  else if c.hasSpecific && !md.keyword_found then none
  else
    match e.date, monthTruthy c.month with
    | some dt, true =>
      if md.exact_keyword_match then
        expenseOut c e s
          (if dt.month == c.month.getD 0 && dt.year == c.year
            then Q.pymax md.boost6 (q 6 5) else md.boost6)
          true md.gst_match md.person_name_match md.phrase_match md.keyword_match
      else if c.personNames.isEmpty && c.phrases.isEmpty && c.keywords.isEmpty && !c.isGst then
        if Q.ltB s (q 3 10) then none
        else expenseOut c e s (q 1 1)
          true md.gst_match md.person_name_match md.phrase_match md.keyword_match
      else if Q.ltB s (q 2 5) then none
      else expenseOut c e s
        (if dt.month == c.month.getD 0 && dt.year == c.year
          then Q.pymax md.boost6 (q 6 5) else md.boost6)
        true md.gst_match md.person_name_match md.phrase_match md.keyword_match
    | _, _ => none

/-- `process_expense_result` (search_service.py lines 307-459): the match
data computation followed by the early-return control flow (the data
computation is pure, so hoisting it ahead of the GST early return preserves
behaviour). -/
def process_expense_result (c : ProcessCtx) (e : Expense) (s : Q) :
    Option (Bucket × ResultData) :=
  processExpenseCore c e s (expenseMatchData c e)

/-- Result-record construction for a GST claim (search_service.py lines
567-578). -/
def mkGstRD (g : GSTClaim) (s boost : Q) : ResultData :=
  { id := g.id, type := "gst_claim", label := "GST Claim: " ++ g.vendor, item := g.vendor,
    amount := g.amount, category := g.category, status := g.status,
    gst_amount := some g.gst_amount, score := Q.mul s boost }

/-- Final bucket placement for a GST claim (search_service.py lines
580-587). -/
def gstFinish (g : GSTClaim) (s boost : Q) (overall date_match : Bool) :
    Option (Bucket × ResultData) :=
  let rd := mkGstRD g s boost
  if date_match && overall then some (Bucket.dateKeyword, rd)
  else if overall then some (Bucket.keywordOnly, rd)
  else some (Bucket.gstExtra, rd)

/-- The pure match computations of the GST-claim branch (search_service.py
lines 493-543): search text, the phrase/keyword matches (with the
unconditional keyword match for tax queries of line 523-524), and the
`overall_match`/boost table of lines 526-543. -/
structure GstMatchData where
  overall : Bool
  boost : Q

/-- Computes `GstMatchData` exactly as the source does. -/
def gstMatchData (c : ProcessCtx) (g : GSTClaim) : GstMatchData :=
  let gst_text0 := joinSpace [lowerS g.vendor, lowerS g.category] ++ " gst tax vat gst-eligible gst-claim"
  let gst_text := match g.user with
    | some u =>
      match u.full_name with
      | some n => if n == "" then gst_text0 else gst_text0 ++ " " ++ lowerS n
      | none => gst_text0
    | none => gst_text0
  let gst_words := dedupS (findAll wordsRx gst_text)
  let phrase_match := c.phrases.any (fun ph => containsSub gst_text (lowerS ph))
  let keyword_match0 := c.keywords.any (fun kw =>
    containsSub gst_text kw || gst_words.contains kw)
  let keyword_match := if c.isGst then true else keyword_match0
  if !c.phrases.isEmpty then
    ⟨phrase_match || keyword_match, if phrase_match then q 7 5 else q 1 1⟩
  else if !c.keywords.isEmpty then
    ⟨keyword_match, if keyword_match then q 13 10 else q 1 1⟩
  else if c.isGst then ⟨true, q 3 2⟩
  else ⟨true, q 1 1⟩

/-- The early-return control flow of the GST-claim branch over its match
data (search_service.py lines 545-587); here the date `else` really is
attached to the equality test, so a month mismatch is dropped unless
similarity is at least 0.7. -/
def processGstCore (c : ProcessCtx) (g : GSTClaim) (s : Q) (md : GstMatchData) :
    Option (Bucket × ResultData) :=
  if !md.overall then none
  else if Q.ltB s (q 3 10) then none
  else
    match g.created_at, monthTruthy c.month with
    | some dt, true =>
      if dt.month == c.month.getD 0 && dt.year == c.year then
        gstFinish g s (Q.pymax md.boost (q 6 5)) md.overall true
      else if Q.ltB s (q 7 10) then none
      else gstFinish g s md.boost md.overall false
    | _, _ => gstFinish g s md.boost md.overall true

/-- The GST-claim branch of the candidate loop (search_service.py lines
478-587): match data computation followed by the early-return control flow. -/
def process_gst_result (c : ProcessCtx) (g : GSTClaim) (s : Q) :
    Option (Bucket × ResultData) :=
  processGstCore c g s (gstMatchData c g)

/-- Python truthiness of an optional float filter bound. -/
def optQTruthy (o : Option Q) : Bool :=
  match o with
  | some v => !(v.num == 0)
  | none => false

/-- One iteration of the candidate loop (search_service.py lines 461-587):
load the record for the candidate, apply the caller's ownership and
amount-range filters with Python truthiness, then hand off to the matching
logic; unknown item types and missing records are skipped. -/
def processCandidate (c : ProcessCtx) (db : Db) (mn mx : Option Q) (uidArg : Option Nat) :
    String × Nat × Q → Option (Bucket × ResultData)
  | (t, i, s) =>
  if t == "expense" then
    match db.expenses.find? (fun e => e.id == i) with
    | none => none
    | some e =>
      if (uidArg.getD 0 != 0) && (e.user_id != uidArg.getD 0) then none
      else if optQTruthy mn && Q.ltB e.amount (mn.getD (q 0 1)) then none
      else if optQTruthy mx && Q.ltB (mx.getD (q 0 1)) e.amount then none
      else process_expense_result c e s
  else if t == "gst_claim" then
    match db.gstClaims.find? (fun g => g.id == i) with
    | none => none
    | some g =>
      if (uidArg.getD 0 != 0) && (g.user_id != uidArg.getD 0) then none
      else if optQTruthy mn && Q.ltB g.amount (mn.getD (q 0 1)) then none
      else if optQTruthy mx && Q.ltB (mx.getD (q 0 1)) g.amount then none
      else process_gst_result c g s
  else none

/-- Assembles the `ProcessCtx` exactly as `semantic_search` does
(search_service.py lines 254-288). -/
def buildCtx (d : Difflib) (db : Db) (query : String) (nowYear : Nat) : ProcessCtx :=
  let kd := extract_keywords d db query
  let sp := specificSplit kd.keywords
  { month := extract_month_from_query query,
    year := extract_year_from_query query nowYear,
    keywords := kd.keywords, personNames := kd.personNames, phrases := kd.phrases,
    personNamesFromDb := kd.personNamesFromDb,
    isGst := isGstQueryOf query, hasSpecific := sp.1, specificKws := sp.2,
    ratio := d.ratio }

/-- The specific-item-keyword flag as `semantic_search` computes it. -/
def hasSpecificOf (d : Difflib) (db : Db) (query : String) : Bool :=
  (specificSplit (extract_keywords d db query).keywords).1

/-- The sequence of bucketed candidate results, in candidate order
(the appends performed by the loop at search_service.py lines 461-587). -/
def searchBucketsOf (d : Difflib) (db : Db) (query : String) (nowYear : Nat)
    (mn mx : Option Q) (uidArg : Option Nat) (embRes : List (String × Nat × Q)) :
    List (Bucket × ResultData) :=
  embRes.filterMap (processCandidate (buildCtx d db query nowYear) db mn mx uidArg)

/-- The concatenation order of the three dedup passes (search_service.py
lines 594-616): date+keyword bucket, then keyword bucket, then the remaining
results followed by the GST catch-all list. -/
def combineAll (bs : List (Bucket × ResultData)) : List ResultData :=
  (bs.filter (fun p => p.1 == Bucket.dateKeyword)).map (fun p => p.2)
    ++ (bs.filter (fun p => p.1 == Bucket.keywordOnly)).map (fun p => p.2)
    ++ ((bs.filter (fun p => p.1 == Bucket.plain)).map (fun p => p.2)
      ++ (bs.filter (fun p => p.1 == Bucket.gstExtra)).map (fun p => p.2))

/-- The shared `seen_ids` deduplication by `(type, id)` keeping first
occurrence (search_service.py lines 594-616). -/
def dedupResults : List (String × Nat) → List ResultData → List ResultData
  | _, [] => []
  | seen, r :: rs =>
    if seen.contains (r.type, r.id) then dedupResults seen rs
    else r :: dedupResults ((r.type, r.id) :: seen) rs

/-- Descending order on composite score: the sort key of
`deduplicated_results.sort(key=..., reverse=True)` (line 619). -/
def scoreGe (a b : ResultData) : Prop := Q.le b.score a.score

instance : DecidableRel scoreGe := fun a b => inferInstanceAs (Decidable (Q.le b.score a.score))

instance : IsTotal ResultData scoreGe :=
  ⟨fun a b => by
    unfold scoreGe Q.le
    rcases le_total (b.score.num * (a.score.den : Int)) (a.score.num * (b.score.den : Int)) with h | h
    · exact Or.inl h
    · exact Or.inr h⟩

instance : IsTrans ResultData scoreGe :=
  ⟨fun a b c h1 h2 => by
    unfold scoreGe Q.le at h1 h2 ⊢
    have da : (0 : Int) ≤ (a.score.den : Int) := by positivity
    have dc : (0 : Int) ≤ (c.score.den : Int) := by positivity
    have dbp : (0 : Int) < (b.score.den : Int) := by exact_mod_cast b.score.den.pos
    have h3 := mul_le_mul_of_nonneg_right h2 da
    have h4 := mul_le_mul_of_nonneg_right h1 dc
    have h5 : c.score.num * (a.score.den : Int) * (b.score.den : Int)
        ≤ a.score.num * (c.score.den : Int) * (b.score.den : Int) := by
      ring_nf at h3 h4 ⊢
      linarith
    exact le_of_mul_le_mul_right h5 dbp⟩

/-- The ordered result list of `semantic_search` (search_service.py lines
589-628): concatenate buckets, deduplicate, sort by composite score
descending (Python's stable sort; scores are pairwise distinct in every
evaluation below), then truncate — to everything for specific-item queries,
else to `limit*3` when keywords or phrases were extracted, else to `limit`. -/
def rankedResults (d : Difflib) (db : Db) (query : String) (limit : Nat)
    (mn mx : Option Q) (uidArg : Option Nat) (nowYear : Nat)
    (embRes : List (String × Nat × Q)) : List ResultData :=
  if hasSpecificOf d db query then
    List.insertionSort scoreGe
      (dedupResults [] (combineAll (searchBucketsOf d db query nowYear mn mx uidArg embRes)))
  else
    (List.insertionSort scoreGe
      (dedupResults [] (combineAll (searchBucketsOf d db query nowYear mn mx uidArg embRes)))).take
      (if !(extract_keywords d db query).keywords.isEmpty ||
          !(extract_keywords d db query).phrases.isEmpty
        then limit * 3 else limit)

/-- The response of `semantic_search` (search_service.py lines 632-637);
`embRes` is the candidate list returned by the external embedding search for
the normalized query, and `nowYear` is the current year.  The wall-clock
`execution_time_ms` field is not modelled. -/
structure SearchResponse where
  query : String
  total_results : Nat
  results : List ResultData
deriving DecidableEq

/-- `SearchService.semantic_search` (search_service.py lines 239-637). -/
def semantic_search (d : Difflib) (db : Db) (query : String) (limit : Nat)
    (mn mx : Option Q) (uidArg : Option Nat) (nowYear : Nat)
    (embRes : List (String × Nat × Q)) : SearchResponse :=
  { query := query,
    total_results := (rankedResults d db query limit mn mx uidArg nowYear embRes).length,
    results := rankedResults d db query limit mn mx uidArg nowYear embRes }

/-! ## Record creation (expense_service.py lines 8-28) -/

/-- The payload of `ExpenseCreate` (schemas/expense.py) as read by
`create_expense`. -/
structure ExpenseCreate where
  date : Option DateD
  amount : Q
  label : String
  item : String
  category : String
  description : Option String
  gst_eligible : Bool
deriving DecidableEq

/-- The committed expense row built by `ExpenseService.create_expense`
(expense_service.py lines 10-20); 0.18 is modelled exactly as 18/100, and
`status` takes the model default `"pending"`. -/
def mkExpenseRow (data : ExpenseCreate) (userId newId : Nat) : Expense :=
  { id := newId, user_id := userId, date := data.date, amount := data.amount,
    label := data.label, item := data.item, category := data.category,
    description := data.description, status := "pending",
    gst_eligible := data.gst_eligible,
    gst_amount := if data.gst_eligible then Q.mul data.amount (q 18 100) else q 0 1,
    user := none }

/-- `ExpenseService.create_expense` (expense_service.py lines 8-28): commit
the new row, then — with no exception handling — call the indexing
collaborator's `add_expense` when one was supplied, and only then return the
expense.  The collaborator is a fallible function; an `Except.error` models
the exception its embedding-model call can raise, which this code does not
catch. -/
def create_expense (dbRows : List Expense) (data : ExpenseCreate) (userId newId : Nat)
    (embeddingService : Option (Expense → Except String Unit)) :
    List Expense × Except String Expense :=
  let e := mkExpenseRow data userId newId
  let committed := dbRows ++ [e]
  match embeddingService with
  | some svc =>
    match svc e with
    | Except.ok _ => (committed, Except.ok e)
    | Except.error msg => (committed, Except.error msg)
  | none => (committed, Except.ok e)

/-! ## Structural lemmas about the pipeline -/

/-- Inserting an infix into a longer left context. -/
theorem sub_extend_left {p m : List Char} (x : List Char) (h : p <:+: m) : p <:+: x ++ m := by
  obtain ⟨u, v, huv⟩ := h
  exact ⟨x ++ u, v, by rw [← huv]; simp [List.append_assoc]⟩

/-- Inserting an infix into a longer right context. -/
theorem sub_extend_right {p m : List Char} (y : List Char) (h : p <:+: m) : p <:+: m ++ y := by
  obtain ⟨u, v, huv⟩ := h
  exact ⟨u, v ++ y, by rw [← huv]; simp [List.append_assoc]⟩

/-- Deduplication only drops elements. -/
theorem dedupResults_subset (seen : List (String × Nat)) (l : List ResultData) :
    ∀ r ∈ dedupResults seen l, r ∈ l := by
  induction l generalizing seen with
  | nil => intro r hr; simp [dedupResults] at hr
  | cons x xs ih =>
    intro r hr
    unfold dedupResults at hr
    by_cases h : seen.contains (x.type, x.id)
    · rw [if_pos h] at hr
      exact List.mem_cons_of_mem _ (ih _ _ hr)
    · rw [if_neg h] at hr
      rcases List.mem_cons.mp hr with h1 | h2
      · exact h1 ▸ List.mem_cons_self _ _
      · exact List.mem_cons_of_mem _ (ih _ _ h2)

/-- Every combined result carries some bucket tag from the bucketed list. -/
theorem mem_combineAll (bs : List (Bucket × ResultData)) (r : ResultData)
    (hr : r ∈ combineAll bs) : ∃ b, (b, r) ∈ bs := by
  unfold combineAll at hr
  simp only [List.mem_append, List.mem_map, List.mem_filter] at hr
  rcases hr with (⟨p, ⟨hp, _⟩, hpr⟩ | ⟨p, ⟨hp, _⟩, hpr⟩) | (⟨p, ⟨hp, _⟩, hpr⟩ | ⟨p, ⟨hp, _⟩, hpr⟩) <;>
    exact ⟨p.1, by rw [← hpr]; simpa using hp⟩

/-- Every returned result originates from processing one embedding-search
candidate. -/
theorem mem_results_origin (d : Difflib) (db : Db) (queryS : String) (limit : Nat)
    (mn mx : Option Q) (uidArg : Option Nat) (nowYear : Nat)
    (embRes : List (String × Nat × Q)) (r : ResultData)
    (hr : r ∈ (semantic_search d db queryS limit mn mx uidArg nowYear embRes).results) :
    ∃ b cand, cand ∈ embRes ∧
      processCandidate (buildCtx d db queryS nowYear) db mn mx uidArg cand = some (b, r) := by
  have hr2 : r ∈ rankedResults d db queryS limit mn mx uidArg nowYear embRes := hr
  unfold rankedResults at hr2
  have hsorted : r ∈ List.insertionSort scoreGe
      (dedupResults [] (combineAll (searchBucketsOf d db queryS nowYear mn mx uidArg embRes))) := by
    by_cases h : hasSpecificOf d db queryS
    · simpa [h] using hr2
    · simp only [h, if_false, Bool.false_eq_true] at hr2
      exact List.take_subset _ _ hr2
  have hd := (List.perm_insertionSort scoreGe _).mem_iff.mp hsorted
  have hc := dedupResults_subset _ _ r hd
  obtain ⟨b, hb⟩ := mem_combineAll _ _ hc
  unfold searchBucketsOf at hb
  obtain ⟨cand, hcand, hpc⟩ := List.mem_filterMap.mp hb
  exact ⟨b, cand, hcand, hpc⟩

/-- Inverting one step of the candidate loop: a produced result comes either
from an expense looked up by id, or from a GST claim looked up by id. -/
theorem processCandidate_origin (c : ProcessCtx) (db : Db) (mn mx : Option Q)
    (uidArg : Option Nat) (t : String) (i : Nat) (s : Q) (b : Bucket) (r : ResultData)
    (h : processCandidate c db mn mx uidArg (t, i, s) = some (b, r)) :
    (∃ e, db.expenses.find? (fun e2 => e2.id == i) = some e ∧
      process_expense_result c e s = some (b, r)) ∨
    (∃ g, db.gstClaims.find? (fun g2 => g2.id == i) = some g ∧
      process_gst_result c g s = some (b, r)) := by
  simp only [processCandidate] at h
  split at h
  · split at h
    · exact Option.noConfusion h
    · next e heq =>
      split at h
      · exact Option.noConfusion h
      · split at h
        · exact Option.noConfusion h
        · split at h
          · exact Option.noConfusion h
          · exact Or.inl ⟨e, heq, h⟩
  · split at h
    · split at h
      · exact Option.noConfusion h
      · next g heq =>
        split at h
        · exact Option.noConfusion h
        · split at h
          · exact Option.noConfusion h
          · split at h
            · exact Option.noConfusion h
            · exact Or.inr ⟨g, heq, h⟩
    · exact Option.noConfusion h

/-- Whatever record a `find?` by id returns has that id. -/
theorem find_id_eq {l : List Expense} {i : Nat} {e : Expense}
    (h : l.find? (fun e2 => e2.id == i) = some e) : e.id = i := by
  have := List.find?_some h
  simpa using this

/-- An appended expense result always carries type `"expense"` and the
expense's own id. -/
theorem expenseOut_shape {c : ProcessCtx} {e : Expense} {s boost : Q}
    {dm gm pm phm km : Bool} {b : Bucket} {r : ResultData}
    (h : expenseOut c e s boost dm gm pm phm km = some (b, r)) :
    r.type = "expense" ∧ r.id = e.id := by
  unfold expenseOut at h
  cases hb : expenseBucket c dm gm pm phm km with
  | none => rw [hb] at h; exact Option.noConfusion h
  | some bk =>
    rw [hb] at h
    simp only [Option.map_some'] at h
    injection h with h'
    have hr : r = mkExpenseRD e s boost := by
      have h2 := congrArg Prod.snd h'
      simpa using h2.symm
    rw [hr]
    exact ⟨rfl, rfl⟩

/-- Every `some` leaf of `process_expense_result` goes through `expenseOut`. -/
theorem process_expense_result_shape {c : ProcessCtx} {e : Expense} {s : Q}
    {b : Bucket} {r : ResultData}
    (h : process_expense_result c e s = some (b, r)) :
    r.type = "expense" ∧ r.id = e.id := by
  unfold process_expense_result processExpenseCore at h
  repeat' split at h
  all_goals first
    | exact expenseOut_shape h
    | exact Option.noConfusion h

/-- With no extracted month (or a falsy one), the misindented date `else`
rejects every expense candidate. -/
theorem process_expense_result_none_of_no_month {c : ProcessCtx} {e : Expense} {s : Q}
    (hm : monthTruthy c.month = false) :
    process_expense_result c e s = none := by
  unfold process_expense_result processExpenseCore
  simp only [hm]
  split
  · rfl
  · split
    · rfl
    · cases e.date <;> rfl

/-- The eligibility test used by the GST hard filter. -/
theorem expenseMatchData_eligible (c : ProcessCtx) (e : Expense) :
    (expenseMatchData c e).eligible = (e.gst_eligible || Q.ltB (q 0 1) e.gst_amount) := rfl

/-- For a tax query, an expense with a false eligibility flag and
non-positive tax amount is rejected outright. -/
theorem process_expense_result_none_of_gst {c : ProcessCtx} {e : Expense} {s : Q}
    (hg : c.isGst = true) (hel : e.gst_eligible = false)
    (hlt : Q.ltB (q 0 1) e.gst_amount = false) :
    process_expense_result c e s = none := by
  unfold process_expense_result processExpenseCore
  simp [expenseMatchData_eligible, hg, hel, hlt]

/-- Pair-extraction helper for `some`-valued branches. -/
theorem pairSome_snd {α β : Type} {x : α} {y : β} {b : α} {r : β}
    (h : some (x, y) = some (b, r)) : r = y := by
  injection h with h'
  exact (congrArg Prod.snd h').symm

/-- A GST-claim result always carries type `"gst_claim"`. -/
theorem gstFinish_type {g : GSTClaim} {s boost : Q} {ov dm : Bool} {b : Bucket} {r : ResultData}
    (h : gstFinish g s boost ov dm = some (b, r)) : r.type = "gst_claim" := by
  unfold gstFinish at h
  repeat' split at h
  all_goals rw [pairSome_snd h]
  all_goals rfl

/-- Every `some` leaf of `process_gst_result` goes through `gstFinish`. -/
theorem process_gst_result_type {c : ProcessCtx} {g : GSTClaim} {s : Q}
    {b : Bucket} {r : ResultData}
    (h : process_gst_result c g s = some (b, r)) : r.type = "gst_claim" := by
  unfold process_gst_result processGstCore at h
  repeat' split at h
  all_goals first
    | exact gstFinish_type h
    | exact Option.noConfusion h

/-- The month the context carries is the one extracted from the query. -/
theorem buildCtx_month (d : Difflib) (db : Db) (queryS : String) (nowYear : Nat) :
    (buildCtx d db queryS nowYear).month = extract_month_from_query queryS := rfl

/-- The tax flag the context carries is the substring classification. -/
theorem buildCtx_isGst (d : Difflib) (db : Db) (queryS : String) (nowYear : Nat) :
    (buildCtx d db queryS nowYear).isGst = isGstQueryOf queryS := rfl

/-- A query containing `"gst eligible"` also contains `"gst"`. -/
theorem contains_gst_of_eligible {s : String}
    (h : containsSub s "gst eligible" = true) : containsSub s "gst" = true := by
  unfold containsSub at h ⊢
  rw [decide_eq_true_eq] at h ⊢
  obtain ⟨u, v, huv⟩ := h
  refine ⟨u, (" eligible" : String).data ++ v, ?_⟩
  have hsp : ("gst" : String).data ++ (" eligible" : String).data = ("gst eligible" : String).data := by decide
  rw [← huv, ← hsp]
  simp [List.append_assoc]

/-! ## Concrete records and candidate lists used by the claims -/

set_option maxRecDepth 1000000

/-- A November petrol record (spec §8, strict date filtering scenario). -/
def eNov : Expense :=
  { id := 1, user_id := 1, date := some ⟨2025, 11, 15⟩, amount := q 500 1,
    label := "petrol", item := "petrol", category := "travel", description := none,
    status := "pending", gst_eligible := false, gst_amount := q 0 1, user := none }

/-- A December petrol record with otherwise identical text. -/
def eDec : Expense := { eNov with id := 2, date := some ⟨2025, 12, 15⟩ }

/-- Store holding only the November and December petrol records. -/
def dbC1 : Db := ⟨[eNov, eDec], [], []⟩

/-- Embedding candidates: the November record with the higher similarity. -/
def embC1 : List (String × Nat × Q) := [("expense", 1, q 9 10), ("expense", 2, q 1 2)]

/-- The Chocolate Cake record of the strict item filtering scenario. -/
def eCake : Expense :=
  { id := 1, user_id := 1, date := some ⟨2025, 11, 21⟩, amount := q 500 1,
    label := "Chocolate Cake", item := "Cake", category := "Food", description := none,
    status := "pending", gst_eligible := false, gst_amount := q 0 1, user := none }

/-- The Team Lunch record of the strict item filtering scenario. -/
def eTeam : Expense :=
  { id := 2, user_id := 1, date := some ⟨2025, 11, 20⟩, amount := q 1200 1,
    label := "Team Lunch", item := "Lunch", category := "Food", description := none,
    status := "pending", gst_eligible := false, gst_amount := q 0 1, user := none }

/-- Store holding exactly the two records of the scenario. -/
def dbC2 : Db := ⟨[eCake, eTeam], [], []⟩

/-- Both records as embedding candidates with non-zero similarity. -/
def embC2 : List (String × Nat × Q) := [("expense", 1, q 9 10), ("expense", 2, q 95 100)]

/-- A record sharing no text with the query (admitted on similarity alone). -/
def eA : Expense :=
  { id := 1, user_id := 1, date := some ⟨2025, 11, 5⟩, amount := q 100 1,
    label := "zq", item := "zq", category := "zq", description := none,
    status := "pending", gst_eligible := false, gst_amount := q 0 1, user := none }

/-- A record matching both the November date and the keyword `expenses`. -/
def eB : Expense :=
  { id := 2, user_id := 1, date := some ⟨2025, 11, 6⟩, amount := q 200 1,
    label := "office expenses", item := "bill", category := "office", description := none,
    status := "pending", gst_eligible := false, gst_amount := q 0 1, user := none }

/-- Store holding the similarity-only and the date+keyword record. -/
def dbC3 : Db := ⟨[eA, eB], [], []⟩

/-- Candidates: the similarity-only record scores 0.9, the date+keyword
record 0.4. -/
def embC3 : List (String × Nat × Q) := [("expense", 1, q 9 10), ("expense", 2, q 2 5)]

/-- The result row the engine produces for `eA` on `"expenses in nov"`:
similarity-only, boosted only by the date hit (0.9 × 1.2). -/
def rdA : ResultData :=
  { id := 1, type := "expense", label := "zq", item := "zq", amount := q 100 1,
    category := "zq", status := "pending", gst_amount := none, score := q 54 50 }

/-- The result row the engine produces for `eB` on `"expenses in nov"`:
date+keyword matched, boosted by the keyword factor (0.4 × 1.3). -/
def rdB : ResultData :=
  { id := 2, type := "expense", label := "office expenses", item := "bill",
    amount := q 200 1, category := "office", status := "pending", gst_amount := none,
    score := q 26 50 }

/-- Two durable embedding rows in the new `(item_type, item_id)` format. -/
def rowsC4 : List EmbRow :=
  [⟨some "expense", 1, 1, [q 0 1]⟩, ⟨some "expense", 2, 2, [q 10 1]⟩]

/-- First-occurrence deduplication of `(kind, id)` pairs — the observable
"(kind, id) set" of a search result in stored order. -/
def dedupKI (l : List (String × Nat)) : List (String × Nat) :=
  l.foldl (fun acc x => if acc.contains x then acc else acc ++ [x]) []

/-- A tax-eligible expense with no date and no tax words in its fields. -/
def eC7 : Expense :=
  { id := 3, user_id := 1, date := none, amount := q 100 1,
    label := "lunch", item := "meal", category := "food", description := none,
    status := "pending", gst_eligible := true, gst_amount := q 18 1, user := none }

/-- A creation payload for the indexing-failure scenario. -/
def dataC5 : ExpenseCreate :=
  { date := some ⟨2025, 11, 2⟩, amount := q 100 1, label := "petrol", item := "fuel",
    category := "travel", description := none, gst_eligible := false }

/-- An empty store. -/
def dbEmptyD : Db := ⟨[], [], []⟩

/-- A non-tax-eligible taxi expense (the `"taxi"`-query scenario). -/
def eTaxi : Expense :=
  { id := 1, user_id := 1, date := some ⟨2025, 11, 3⟩, amount := q 50 1,
    label := "taxi ride", item := "taxi", category := "travel", description := none,
    status := "pending", gst_eligible := false, gst_amount := q 0 1, user := none }

/-- Store holding only the taxi expense. -/
def dbC10 : Db := ⟨[eTaxi], [], []⟩

/-! ## Claims -/

/-- C1.  The spec demands that a month-qualified query drop every expense
whose date is outside that month: for `"petrol in december"` the November
record must be excluded even at higher similarity.  The code does the
opposite — the misindented `else` of the date block (search_service.py lines
416-424) never drops a month mismatch — so the November record is not only
included but ranked first.  This theorem evaluates the code at the failing
input: the result list is [November record, December record]. -/
theorem c1_november_record_not_excluded :
    ((semantic_search difflibD dbC1 "petrol in december" 10 none none none 2025 embC1).results.map
      (fun r => (r.type, r.id))) = [("expense", 1), ("expense", 2)] ∧
    extract_month_from_query "petrol in december" = some 12 ∧
    eNov.date = some ⟨2025, 11, 15⟩ := by
  refine ⟨?_, by decide, by decide⟩
  decide

/-- C2.  The spec demands that the query `"cake expense"` over the records
{Chocolate Cake, Team Lunch} return exactly the Chocolate Cake record.  The
code returns nothing: `"cake expense"` yields no month hint, so the
misindented date `else` (search_service.py lines 416-424) rejects every
expense — including the Chocolate Cake record that passed the strict item
filter.  This theorem evaluates the code at the failing input. -/
theorem c2_cake_query_returns_nothing :
    (semantic_search difflibD dbC2 "cake expense" 10 none none none 2025 embC2).results = [] ∧
    extract_month_from_query "cake expense" = none := by
  refine ⟨?_, by decide⟩
  decide

/-- C3 counterexample.  For the single query `"expenses in nov"`, record B is
bucketed as a date+keyword match and record A as a similarity-only match, yet
the returned order is [A, B]: the final sort by composite score (line 619)
overrides bucket precedence, so a date+keyword match ranks below a
similarity-only match with a higher score — refuting the claim. -/
theorem c3_date_keyword_ranks_below_similarity_only :
    searchBucketsOf difflibD dbC3 "expenses in nov" 2025 none none none embC3 =
      [(Bucket.plain, rdA), (Bucket.dateKeyword, rdB)] ∧
    (semantic_search difflibD dbC3 "expenses in nov" 10 none none none 2025 embC3).results =
      [rdA, rdB] := by
  constructor
  · decide
  · decide

/-- C3 amended.  What the code guarantees instead: the returned list is
ordered purely by composite similarity score, descending; bucket membership
only decides deduplication priority, not the final order. -/
theorem c3_results_sorted_by_score (d : Difflib) (db : Db) (queryS : String) (limit : Nat)
    (mn mx : Option Q) (uidArg : Option Nat) (nowYear : Nat)
    (embRes : List (String × Nat × Q)) :
    List.Sorted scoreGe (semantic_search d db queryS limit mn mx uidArg nowYear embRes).results := by
  show List.Sorted scoreGe (rankedResults d db queryS limit mn mx uidArg nowYear embRes)
  unfold rankedResults
  split
  · exact List.sorted_insertionSort scoreGe _
  · exact (List.sorted_insertionSort scoreGe _).sublist (List.take_sublist _ _)

/-- C4 counterexample.  `load_from_db` never clears the in-memory state, so
replaying the same two durable rows twice leaves four slots, and a k=2 search
for the vector of the first row then returns the duplicated first record
only: the (kind, id) sets of the once-built and twice-built index differ. -/
theorem c4_rebuild_not_idempotent :
    (load_from_db (load_from_db emptyIndex rowsC4) rowsC4).vectors.length = 4 ∧
    dedupKI ((index_search (load_from_db (load_from_db emptyIndex rowsC4) rowsC4) [q 0 1] 2).map
        (fun t => (t.1, t.2.1))) ≠
      dedupKI ((index_search (load_from_db emptyIndex rowsC4) [q 0 1] 2).map
        (fun t => (t.1, t.2.1))) := by
  constructor
  · decide
  · decide

/-- C4 amended.  What the code does instead of clear-and-replay: it appends
every durable row, in stored order, to whatever in-memory state already
exists; a single load from the empty index therefore replays the rows in
stored order, but a second load duplicates every slot. -/
theorem c4_load_from_db_appends_in_order (ix : Index) (rows : List EmbRow) :
    (load_from_db ix rows).vectors = ix.vectors ++ rows.map (fun r => r.vector) ∧
    (load_from_db ix rows).idMap = ix.idMap ++ rows.map rowKindId := by
  induction rows generalizing ix with
  | nil => simp [load_from_db]
  | cons r rs ih =>
    have hstep : load_from_db ix (r :: rs) =
        load_from_db (add_vector_to_index ix (rowKindId r).1 (rowKindId r).2 r.vector) rs := rfl
    have h2 := ih (add_vector_to_index ix (rowKindId r).1 (rowKindId r).2 r.vector)
    constructor
    · rw [hstep, h2.1]
      simp [add_vector_to_index]
    · rw [hstep, h2.2]
      simp [add_vector_to_index]

/-- C5 counterexample.  `create_expense` wraps its indexing call in no
exception handler: when the collaborator's `add_expense` raises, the call
does not return the committed expense — the error propagates to the caller
(refuting the claim that indexing errors are caught inside the indexing
path). -/
theorem c5_indexing_error_propagates :
    (create_expense [] dataC5 7 1 (some (fun _ => Except.error "embedding model failure"))).2 =
      Except.error "embedding model failure" ∧
    (create_expense [] dataC5 7 1 (some (fun _ => Except.error "embedding model failure"))).2 ≠
      Except.ok (mkExpenseRow dataC5 7 1) := by
  constructor
  · rfl
  · intro h
    exact Except.noConfusion h

/-- C5 amended.  What the code guarantees instead: the expense is committed
before indexing, and an indexing failure then propagates unchanged out of
`create_expense`, leaving the committed row in place. -/
theorem c5_commit_then_propagate (dbRows : List Expense) (data : ExpenseCreate)
    (userId newId : Nat) (f : Expense → Except String Unit) (msg : String)
    (hf : f (mkExpenseRow data userId newId) = Except.error msg) :
    create_expense dbRows data userId newId (some f) =
      (dbRows ++ [mkExpenseRow data userId newId], Except.error msg) := by
  simp [create_expense, hf]

/-- Witness for C5 amended at a concrete failing collaborator. -/
theorem c5_commit_then_propagate_witness :
    (fun (_ : Expense) => (Except.error "embedding model failure" : Except String Unit))
        (mkExpenseRow dataC5 7 1) = Except.error "embedding model failure" ∧
    create_expense [] dataC5 7 1
        (some (fun _ => Except.error "embedding model failure")) =
      ([mkExpenseRow dataC5 7 1], Except.error "embedding model failure") := by
  refine ⟨rfl, ?_⟩
  have h := c5_commit_then_propagate [] dataC5 7 1
    (fun _ => Except.error "embedding model failure") "embedding model failure" rfl
  simpa using h

/-- C6 counterexample.  With limit 1, no specific-item flag, and one
extracted keyword, the query `"expenses in nov"` returns 2 results: the code
truncates to `limit*3` whenever keywords or phrases were extracted, not to
the caller's limit. -/
theorem c6_caller_limit_exceeded :
    hasSpecificOf difflibD dbC3 "expenses in nov" = false ∧
    (semantic_search difflibD dbC3 "expenses in nov" 1 none none none 2025 embC3).results.length = 2 := by
  constructor
  · decide
  · decide

/-- C6 amended.  What the code guarantees instead: when the specific-item
flag is unset the deduplicated list is truncated to `limit*3` if keywords or
phrases were extracted and to `limit` otherwise — so never more than
`3*limit` results; when the flag is set the full set is returned. -/
theorem c6_truncation_bound (d : Difflib) (db : Db) (queryS : String) (limit : Nat)
    (mn mx : Option Q) (uidArg : Option Nat) (nowYear : Nat)
    (embRes : List (String × Nat × Q))
    (h : hasSpecificOf d db queryS = false) :
    (semantic_search d db queryS limit mn mx uidArg nowYear embRes).results.length ≤ 3 * limit := by
  show (rankedResults d db queryS limit mn mx uidArg nowYear embRes).length ≤ 3 * limit
  unfold rankedResults
  rw [h]
  simp only [Bool.false_eq_true, if_false, List.length_take]
  split
  · exact le_trans (Nat.min_le_left _ _) (by omega)
  · exact le_trans (Nat.min_le_left _ _) (by omega)

/-- Witness for C6 amended at a concrete non-specific query. -/
theorem c6_truncation_bound_witness :
    hasSpecificOf difflibD dbEmptyD "zz" = false ∧
    (semantic_search difflibD dbEmptyD "zz" 1 none none none 2025 []).results.length ≤ 3 * 1 := by
  refine ⟨by decide, ?_⟩
  exact c6_truncation_bound difflibD dbEmptyD "zz" 1 none none none 2025 [] (by decide)

/-- C7 counterexample.  For a tax-eligible expense, the searchable text
produced by `generate_text` — the projection that is embedded and stored —
contains no `"gst tax"` marker; the marker of search_service.py line 319 is
added only to the query-time match text, never to the projector output. -/
theorem c7_eligible_expense_text_lacks_marker :
    eC7.gst_eligible = true ∧
    containsSub (generate_text pyFloatStr eC7) "gst tax" = false := by
  constructor
  · rfl
  · decide

/-- C7 amended.  What the projector does guarantee: the searchable text of
every tax claim contains the literal marker `"gst tax"`
(`generate_gst_text` always appends `" rupees gst tax vat"`), for any
rendering of the numeric fields; tax-eligible expenses get no such marker. -/
theorem c7_gst_claim_text_contains_marker (showNum : Q → String) (g : GSTClaim) :
    containsSub (generate_gst_text showNum g) "gst tax" = true := by
  unfold containsSub
  rw [decide_eq_true_eq]
  unfold generate_gst_text
  have hbase : ("gst tax" : String).data <:+: (" rupees gst tax vat" : String).data := by decide
  rcases g.user with _ | u
  · simp only [String.data_append, List.append_assoc]
    exact sub_extend_left _ (sub_extend_left _ (sub_extend_left _ (sub_extend_left _
      (sub_extend_left _ (sub_extend_left _ (sub_extend_left _ (sub_extend_right _ hbase)))))))
  · rcases hu : u.full_name with _ | n
    · simp only [hu, String.data_append, List.append_assoc]
      exact sub_extend_left _ (sub_extend_left _ (sub_extend_left _ (sub_extend_left _
        (sub_extend_left _ (sub_extend_left _ (sub_extend_left _ (sub_extend_right _ hbase)))))))
    · simp only [hu]
      split
      · simp only [String.data_append, List.append_assoc]
        exact sub_extend_left _ (sub_extend_left _ (sub_extend_left _ (sub_extend_left _
          (sub_extend_left _ (sub_extend_left _ (sub_extend_left _ (sub_extend_right _ hbase)))))))
      · simp only [String.data_append, List.append_assoc]
        exact sub_extend_left _ (sub_extend_left _ (sub_extend_left _ (sub_extend_left _
          (sub_extend_left _ (sub_extend_left _ (sub_extend_left _ (sub_extend_right _ hbase)))))))

/-- C8.  Spelling normalization maps `"pertol"` to `"petrol"` (the explicit
typo table fires before any fuzzy matching) and keeps `"gst"` unchanged (the
exact vocabulary hit fires before any fuzzy matching) — for every behaviour
of the external fuzzy matcher. -/
theorem c8_typo_corrected_acronym_preserved (d : Difflib) :
    correct_spelling d EXPENSE_VOCABULARY "pertol" = "petrol" ∧
    correct_spelling d EXPENSE_VOCABULARY "gst" = "gst" :=
  ⟨rfl, rfl⟩

/-- C9.  When no month hint is extracted from the query, the misindented
date `else` rejects every expense candidate, so every returned result is a
GST claim: no month-less query can ever return an expense. -/
theorem c9_month_less_query_returns_no_expense (d : Difflib) (db : Db) (queryS : String)
    (limit : Nat) (mn mx : Option Q) (uidArg : Option Nat) (nowYear : Nat)
    (embRes : List (String × Nat × Q))
    (hm : extract_month_from_query queryS = none) :
    ∀ r ∈ (semantic_search d db queryS limit mn mx uidArg nowYear embRes).results,
      r.type = "gst_claim" := by
  intro r hr
  obtain ⟨b, cand, _, hpc⟩ := mem_results_origin d db queryS limit mn mx uidArg nowYear embRes r hr
  obtain ⟨t, i, s⟩ := cand
  rcases processCandidate_origin _ _ _ _ _ _ _ _ _ _ hpc with ⟨e, _, hpe⟩ | ⟨g, _, hpg⟩
  · have hmt : monthTruthy (buildCtx d db queryS nowYear).month = false := by
      rw [buildCtx_month, hm]
      rfl
    rw [process_expense_result_none_of_no_month hmt] at hpe
    exact Option.noConfusion hpe
  · exact process_gst_result_type hpg

/-- Witness for C9 at a concrete month-less query. -/
theorem c9_witness :
    extract_month_from_query "hello team" = none ∧
    ∀ r ∈ (semantic_search difflibD dbC10 "hello team" 10 none none none 2025
        [("expense", 1, q 9 10)]).results, r.type = "gst_claim" := by
  refine ⟨by decide, ?_⟩
  exact c9_month_less_query_returns_no_expense difflibD dbC10 "hello team" 10 none none none 2025
    [("expense", 1, q 9 10)] (by decide)

/-- C10.  Tax-query classification is raw substring containment on the
lowercased query (`"gst"`, `"tax"`, `"vat"` — the redundant
`"gst eligible"` term adds nothing), so e.g. `"taxi"` is classified as a tax
query; and for every query so classified, an expense whose eligibility flag
is false and whose tax amount is not positive never appears among the
results. -/
theorem c10_substring_classification_and_strict_exclusion (d : Difflib) (db : Db)
    (queryS : String) (limit : Nat) (mn mx : Option Q) (uidArg : Option Nat) (nowYear : Nat)
    (embRes : List (String × Nat × Q)) (i : Nat) (e : Expense) :
    (isGstQueryOf queryS =
      (containsSub (lowerS queryS) "gst" || containsSub (lowerS queryS) "tax" ||
        containsSub (lowerS queryS) "vat")) ∧
    (isGstQueryOf queryS = true →
      db.expenses.find? (fun e2 => e2.id == i) = some e →
      e.gst_eligible = false →
      Q.ltB (q 0 1) e.gst_amount = false →
      ∀ r ∈ (semantic_search d db queryS limit mn mx uidArg nowYear embRes).results,
        r.type = "expense" → r.id ≠ i) := by
  constructor
  · unfold isGstQueryOf
    simp only [List.any_cons, List.any_nil, Bool.or_false]
    cases hA : containsSub (lowerS queryS) "gst" <;>
      cases hB : containsSub (lowerS queryS) "tax" <;>
        cases hC : containsSub (lowerS queryS) "vat" <;>
          cases hD : containsSub (lowerS queryS) "gst eligible" <;>
            first
              | rfl
              | exact absurd (contains_gst_of_eligible hD) (by rw [hA]; exact Bool.false_ne_true)
  · intro hgst hfind hel hlt r hr htype hid
    obtain ⟨b, cand, _, hpc⟩ := mem_results_origin d db queryS limit mn mx uidArg nowYear embRes r hr
    obtain ⟨t, j, s⟩ := cand
    rcases processCandidate_origin _ _ _ _ _ _ _ _ _ _ hpc with ⟨e2, hfind2, hpe⟩ | ⟨g, _, hpg⟩
    · obtain ⟨_, hid2⟩ := process_expense_result_shape hpe
      have hj : e2.id = j := find_id_eq hfind2
      have hji : j = i := by rw [← hj, ← hid2, hid]
      rw [hji] at hfind2
      have he2 : e2 = e := Option.some.inj (hfind2.symm.trans hfind)
      have hg2 : (buildCtx d db queryS nowYear).isGst = true := by
        rw [buildCtx_isGst]
        exact hgst
      rw [he2, process_expense_result_none_of_gst hg2 hel hlt] at hpe
      exact Option.noConfusion hpe
    · rw [process_gst_result_type hpg] at htype
      exact absurd htype (by decide)

/-- Witness for C10: the query `"taxi"` (containing `"tax"` inside a longer
word) excludes the non-eligible taxi expense despite a 0.9 similarity. -/
theorem c10_witness :
    isGstQueryOf "taxi" = true ∧
    ∀ r ∈ (semantic_search difflibD dbC10 "taxi" 10 none none none 2025
        [("expense", 1, q 9 10)]).results, r.type = "expense" → r.id ≠ 1 := by
  refine ⟨by decide, ?_⟩
  exact (c10_substring_classification_and_strict_exclusion difflibD dbC10 "taxi" 10 none none
    none 2025 [("expense", 1, q 9 10)] 1 eTaxi).2 (by decide) (by decide) (by decide) (by decide)
